import Mathlib

/-!
Verification of the capsule-hotel booking domain model (src/main.py and
src/ui/main_window.py): guests, capsules, bookings, and the Hotel aggregate.

Python dictionaries are embedded as association lists (insertion-ordered,
keys effectively unique because assignment replaces in place), dates as
integers (day numbers, so subtraction yields the day difference), prices
as rationals (the random price jitter is passed in as an explicit
parameter), and exceptions as an error type threaded through the
operations.  Each operation returns the result (or error) together with
the post-state; an operation that raises in Python performs no mutation
of pre-existing state before the raise, which is reflected by returning
the unchanged state on the error paths.
-/

/-- Calendar dates, as day numbers; date subtraction is the day count. -/
abbrev Date := Int

/-- The error kinds raised by the domain model, named after the spec's
error taxonomy (each corresponds to one raise site in src/main.py). -/
inductive HErr where
  | DateRangeInvalid
  | DateInPast
  | DurationTooLong
  | DuplicatePassport
  | GuestNotFound
  | CapsuleNotFound
  | BookingNotFound
  | CapsuleUnavailable
  | AlreadyPaid
  | PaymentLocked
deriving DecidableEq, Repr

/-! ### Association lists, the embedding of Python dict -/

/-- Lookup of a key in an association list (first matching entry). -/
def alookup {κ α : Type} [DecidableEq κ] (k : κ) : List (κ × α) → Option α
  | [] => none
  | p :: rest => if p.1 = k then some p.2 else alookup k rest

/-- Python dict assignment: replace the first entry with the given key in
place, or append a fresh entry at the end. -/
def ainsert {κ α : Type} [DecidableEq κ] (k : κ) (v : α) :
    List (κ × α) → List (κ × α)
  | [] => [(k, v)]
  | p :: rest => if p.1 = k then (k, v) :: rest else p :: ainsert k v rest

/-- Python `del d[k]`: drop the first entry with the given key. -/
def aerase {κ α : Type} [DecidableEq κ] (k : κ) :
    List (κ × α) → List (κ × α)
  | [] => []
  | p :: rest => if p.1 = k then rest else p :: aerase k rest

theorem alookup_mem {κ α : Type} [DecidableEq κ] {k : κ} {v : α}
    {l : List (κ × α)} (h : alookup k l = some v) : (k, v) ∈ l := by
  induction l with
  | nil => simp [alookup] at h
  | cons p rest ih =>
    obtain ⟨a, b⟩ := p
    by_cases hk : a = k
    · subst hk
      rw [alookup, if_pos rfl] at h
      cases h
      exact List.mem_cons_self _ _
    · simp only [alookup, if_neg hk] at h
      exact List.mem_cons_of_mem _ (ih h)

theorem alookup_ainsert_self {κ α : Type} [DecidableEq κ] (k : κ) (v : α)
    (l : List (κ × α)) : alookup k (ainsert k v l) = some v := by
  induction l with
  | nil => simp [alookup, ainsert]
  | cons p rest ih =>
    by_cases hk : p.1 = k
    · simp [ainsert, hk, alookup]
    · simp [ainsert, hk, alookup, ih]

theorem alookup_ainsert_ne {κ α : Type} [DecidableEq κ] {k k' : κ}
    (h : k' ≠ k) (v : α) (l : List (κ × α)) :
    alookup k' (ainsert k v l) = alookup k' l := by
  have hne : ¬(k = k') := fun hh => h hh.symm
  induction l with
  | nil => simp [alookup, ainsert, hne]
  | cons p rest ih =>
    by_cases hk : p.1 = k
    · subst hk
      simp [ainsert, alookup, hne]
    · simp only [ainsert, if_neg hk, alookup]
      by_cases hk' : p.1 = k'
      · simp [hk']
      · simp [hk', ih]

theorem mem_ainsert {κ α : Type} [DecidableEq κ] {x : κ × α} {k : κ}
    {v : α} {l : List (κ × α)} (h : x ∈ ainsert k v l) :
    x = (k, v) ∨ x ∈ l := by
  induction l with
  | nil => simpa [ainsert] using h
  | cons p rest ih =>
    by_cases hk : p.1 = k
    · simp only [ainsert, if_pos hk] at h
      rcases List.mem_cons.mp h with h | h
      · exact Or.inl h
      · exact Or.inr (List.mem_cons_of_mem _ h)
    · simp only [ainsert, if_neg hk] at h
      rcases List.mem_cons.mp h with h | h
      · exact Or.inr (h ▸ List.mem_cons_self _ _)
      · rcases ih h with h | h
        · exact Or.inl h
        · exact Or.inr (List.mem_cons_of_mem _ h)

theorem ainsert_of_alookup_none {κ α : Type} [DecidableEq κ] {k : κ}
    {l : List (κ × α)} (h : alookup k l = none) (v : α) :
    ainsert k v l = l ++ [(k, v)] := by
  induction l with
  | nil => simp [ainsert]
  | cons p rest ih =>
    by_cases hk : p.1 = k
    · simp [alookup, hk] at h
    · simp only [alookup, if_neg hk] at h
      simp [ainsert, hk, ih h]

/-- Replacing an entry in place preserves any projection of the values
that agrees on the old and new value. -/
theorem map_ainsert_of_eq {κ α β : Type} [DecidableEq κ] (f : α → β)
    {k : κ} {v v' : α} {l : List (κ × α)} (h : alookup k l = some v)
    (hf : f v' = f v) :
    (ainsert k v' l).map (fun p => f p.2) = l.map (fun p => f p.2) := by
  induction l with
  | nil => simp [alookup] at h
  | cons p rest ih =>
    by_cases hk : p.1 = k
    · have hv : p.2 = v := by simpa [alookup, hk] using h
      simp [ainsert, hk, hf, hv]
    · simp only [alookup, if_neg hk] at h
      simp [ainsert, hk, ih h]

theorem keys_ainsert_of_alookup_some {κ α : Type} [DecidableEq κ] {k : κ}
    {v v' : α} {l : List (κ × α)} (h : alookup k l = some v) :
    (ainsert k v' l).map Prod.fst = l.map Prod.fst := by
  induction l with
  | nil => simp [alookup] at h
  | cons p rest ih =>
    by_cases hk : p.1 = k
    · simp [ainsert, hk]
    · simp only [alookup, if_neg hk] at h
      simp [ainsert, hk, ih h]

theorem alookup_eq_none_iff {κ α : Type} [DecidableEq κ] {k : κ}
    {l : List (κ × α)} : alookup k l = none ↔ k ∉ l.map Prod.fst := by
  induction l with
  | nil => simp [alookup]
  | cons p rest ih =>
    by_cases hk : p.1 = k
    · simp [alookup, hk]
    · have hne : ¬(k = p.1) := fun hh => hk hh.symm
      simp [alookup, hk, ih, hne]

theorem keys_nodup_ainsert {κ α : Type} [DecidableEq κ] {k : κ} {v : α}
    {l : List (κ × α)} (h : (l.map Prod.fst).Nodup) :
    ((ainsert k v l).map Prod.fst).Nodup := by
  cases hl : alookup k l with
  | none =>
    rw [ainsert_of_alookup_none hl]
    simp only [List.map_append, List.map_cons, List.map_nil]
    rw [List.nodup_append]
    refine ⟨h, List.nodup_singleton _, ?_⟩
    intro a ha hb
    simp only [List.mem_singleton] at hb
    subst hb
    exact (alookup_eq_none_iff.mp hl) ha
  | some w => rw [keys_ainsert_of_alookup_some hl]; exact h

theorem aerase_sublist {κ α : Type} [DecidableEq κ] (k : κ)
    (l : List (κ × α)) : (aerase k l).Sublist l := by
  induction l with
  | nil => simp [aerase]
  | cons p rest ih =>
    by_cases hk : p.1 = k
    · simp only [aerase, if_pos hk]
      exact (List.sublist_cons_self p rest)
    · simp only [aerase, if_neg hk]
      exact List.Sublist.cons₂ p ih

theorem keys_nodup_aerase {κ α : Type} [DecidableEq κ] {k : κ}
    {l : List (κ × α)} (h : (l.map Prod.fst).Nodup) :
    ((aerase k l).map Prod.fst).Nodup :=
  ((aerase_sublist k l).map Prod.fst).nodup h

theorem alookup_aerase_self {κ α : Type} [DecidableEq κ] {k : κ}
    {l : List (κ × α)} (h : (l.map Prod.fst).Nodup) :
    alookup k (aerase k l) = none := by
  induction l with
  | nil => simp [aerase, alookup]
  | cons p rest ih =>
    simp only [List.map_cons, List.nodup_cons] at h
    by_cases hk : p.1 = k
    · simp only [aerase, if_pos hk]
      rw [alookup_eq_none_iff]
      exact hk ▸ h.1
    · simp only [aerase, if_neg hk, alookup, if_neg hk]
      exact ih h.2

/-! ### Data model (src/main.py) -/

/-- The Russian capsule-type constants of class Capsule. -/
def TYPE_STANDARD : String := "Стандарт"

/-- Capsule.TYPE_LUX. -/
def TYPE_LUX : String := "Люкс"

/-- Capsule.TYPE_PREMIUM. -/
def TYPE_PREMIUM : String := "Премиум"

/-- Booking (class Booking): entity references are embedded as the ids of
the guest and capsule; dates are day numbers; Python objects are compared
by identity, which the unique booking ids reproduce. -/
structure Booking where
  booking_id : Nat
  guest_id : Nat
  capsule_id : Nat
  start_date : Date
  end_date : Date
  is_paid : Bool
deriving DecidableEq, Repr

/-- Capsule (class Capsule).  The current-booking reference stores the
booking's data; all fields read through this reference in the core
(start date and end date in Hotel.get_available_capsules) are immutable
after creation, so the copy is observationally equal to the Python
reference. -/
structure Capsule where
  capsule_id : Nat
  ctype : String
  price_per_night : Rat
  is_available : Bool
  current_booking : Option Booking
deriving DecidableEq, Repr

/-- Guest (class Guest): the guest's booking list holds booking ids, in
insertion order. -/
structure Guest where
  guest_id : Nat
  name : String
  passport : String
  phone : String
  bookings : List Nat
deriving DecidableEq, Repr

/-- Hotel (class Hotel) together with the two pieces of class-level state
of the Python program: Guest._used_passports and Booking._booking_history
(the latter stores booking ids, oldest first). -/
structure Hotel where
  guests : List (Nat × Guest)
  capsules : List (Nat × Capsule)
  bookings : List (Nat × Booking)
  next_guest_id : Nat
  next_capsule_id : Nat
  next_booking_id : Nat
  used_passports : List String
  history : List Nat
deriving DecidableEq, Repr

/-- Hotel.__init__ (the database reload is an out-of-scope collaborator;
the in-memory state starts empty, counters at 1). -/
def Hotel.init : Hotel :=
  { guests := [], capsules := [], bookings := [],
    next_guest_id := 1, next_capsule_id := 1, next_booking_id := 1,
    used_passports := [], history := [] }

/-! ### Capsule operations -/

/-- Capsule.BASE_PRICES lookup with the .get default of 1000. -/
def Capsule.basePrice (ty : String) : Rat :=
  if ty = TYPE_STANDARD then 1500
  else if ty = TYPE_LUX then 2500
  else if ty = TYPE_PREMIUM then 3500
  else 1000

/-- Capsule._calculate_price: base price times (1 + u), where u is the
random draw from [-0.1, 0.1], passed in explicitly. -/
def Capsule.calculate_price (ty : String) (u : Rat) : Rat :=
  Capsule.basePrice ty * (1 + u)

/-- Capsule.book: raises CapsuleUnavailable when the capsule is occupied,
otherwise clears the availability flag and stores the booking. -/
def Capsule.book (c : Capsule) (b : Booking) : Except HErr Capsule :=
  if c.is_available = false then .error .CapsuleUnavailable
  else .ok { c with is_available := false, current_booking := some b }

/-- Capsule.release: unconditionally frees the capsule. -/
def Capsule.release (c : Capsule) : Capsule :=
  { c with is_available := true, current_booking := none }

/-- The availability-on-a-date test inlined in
Hotel.get_available_capsules: available flag set, or the occupying
booking's inclusive date range misses the given date (None is falsy). -/
def Capsule.available_on (c : Capsule) (date : Date) : Bool :=
  c.is_available ||
    (match c.current_booking with
     | some b => !(decide (b.start_date ≤ date) && decide (date ≤ b.end_date))
     | none => false)

/-! ### Guest operations -/

/-- Python str.capitalize on one word: first character uppercased, the
rest lowercased. -/
def capitalizeWord (w : List Char) : List Char :=
  match w with
  | [] => []
  | c :: cs => c.toUpper :: cs.map Char.toLower

/-- Python str.split() with no separator: split on whitespace runs,
dropping empty parts.  Structural recursion over the characters; the
accumulator holds the current word reversed. -/
def splitWhitespaceAux : List Char → List Char → List (List Char)
  | [], acc => if acc.isEmpty then [] else [acc.reverse]
  | c :: cs, acc =>
    if c.isWhitespace then
      if acc.isEmpty then splitWhitespaceAux cs []
      else acc.reverse :: splitWhitespaceAux cs []
    else splitWhitespaceAux cs (c :: acc)

/-- The name normalization in Hotel.register_guest: split on whitespace,
capitalize every part, join with single spaces. -/
def normalizeName (name : String) : String :=
  String.mk
    (List.intercalate [' '] ((splitWhitespaceAux name.data []).map capitalizeWord))

/-- Guest.add_booking: append to the guest's booking list. -/
def Guest.add_booking (g : Guest) (bid : Nat) : Guest :=
  { g with bookings := g.bookings ++ [bid] }

/-- Guest.remove_booking: remove the booking if present, first occurrence
only, silently a no-op when absent. -/
def Guest.remove_booking (g : Guest) (bid : Nat) : Guest :=
  { g with bookings := g.bookings.erase bid }

/-! ### Booking operations -/

/-- deque(maxlen=1000) of Booking._booking_history. -/
def HISTORY_MAXLEN : Nat := 1000

/-- Appending to the bounded history deque: at capacity the oldest entry
(the head) is dropped before the new one is appended at the end. -/
def historyAppend (hist : List Nat) (bid : Nat) : List Nat :=
  if HISTORY_MAXLEN ≤ hist.length then hist.drop 1 ++ [bid]
  else hist ++ [bid]

/-- Booking.get_recent_bookings: Python list slicing hist[-count:].  For
count = 0 the slice starts at index -0 = 0 and returns the whole list;
for positive count it returns the last min(count, length) entries. -/
def Booking.get_recent_bookings (hist : List Nat) (count : Nat) : List Nat :=
  if count = 0 then hist else hist.drop (hist.length - count)

/-- Booking.calculate_total: nights times the capsule's nightly price. -/
def Booking.calculate_total (b : Booking) (price_per_night : Rat) : Rat :=
  ((b.end_date - b.start_date : Int) : Rat) * price_per_night

/-- Booking.mark_as_paid: fails with AlreadyPaid on a paid booking, else
sets the paid flag. -/
def Booking.mark_as_paid (b : Booking) : Except HErr Booking :=
  if b.is_paid then .error .AlreadyPaid
  else .ok { b with is_paid := true }

/-! ### Hotel operations -/

/-- Hotel.add_capsule, with the random price jitter u as an explicit
parameter of the step. -/
def Hotel.add_capsule (h : Hotel) (ty : String) (u : Rat) : Capsule × Hotel :=
  let c : Capsule :=
    { capsule_id := h.next_capsule_id, ctype := ty,
      price_per_night := Capsule.calculate_price ty u,
      is_available := true, current_booking := none }
  (c, { h with capsules := ainsert h.next_capsule_id c h.capsules,
               next_capsule_id := h.next_capsule_id + 1 })

/-- Hotel.register_guest together with Guest.__init__: normalize the
name, fail with DuplicatePassport when the passport was ever used (the
raise happens before the used-passport set and the registry are touched),
otherwise record the passport, store the guest under the next id and
advance the counter. -/
def Hotel.register_guest (h : Hotel) (name passport phone : String) :
    Except HErr Guest × Hotel :=
  let name := normalizeName name
  if passport ∈ h.used_passports then (.error .DuplicatePassport, h)
  else
    let g : Guest :=
      { guest_id := h.next_guest_id, name := name, passport := passport,
        phone := phone, bookings := [] }
    (.ok g,
     { h with used_passports := h.used_passports ++ [passport],
              guests := ainsert h.next_guest_id g h.guests,
              next_guest_id := h.next_guest_id + 1 })

/-- Hotel.create_booking together with Booking.__init__ and
Booking._validate_dates, checks in source order: guest exists, capsule
exists, end after start, start not before today, span at most 30 days,
capsule free.  Only after all checks pass are the capsule, the guest's
list, the history buffer and the ledger mutated. -/
def Hotel.create_booking (h : Hotel) (today : Date) (guest_id capsule_id : Nat)
    (start_date end_date : Date) : Except HErr Booking × Hotel :=
  match alookup guest_id h.guests with
  | none => (.error .GuestNotFound, h)
  | some guest =>
    match alookup capsule_id h.capsules with
    | none => (.error .CapsuleNotFound, h)
    | some capsule =>
      if end_date ≤ start_date then (.error .DateRangeInvalid, h)
      else if start_date < today then (.error .DateInPast, h)
      else if 30 < end_date - start_date then (.error .DurationTooLong, h)
      else
        let b : Booking :=
          { booking_id := h.next_booking_id, guest_id := guest_id,
            capsule_id := capsule_id, start_date := start_date,
            end_date := end_date, is_paid := false }
        match capsule.book b with
        | .error e => (.error e, h)
        | .ok capsule2 =>
          (.ok b,
           { h with
              capsules := ainsert capsule_id capsule2 h.capsules,
              guests := ainsert guest_id (guest.add_booking b.booking_id) h.guests,
              history := historyAppend h.history b.booking_id,
              bookings := ainsert h.next_booking_id b h.bookings,
              next_booking_id := h.next_booking_id + 1 })

/-- Booking.cancel, lifted to the hotel state in which the booking's
capsule and guest references live: fails with PaymentLocked on a paid
booking before any mutation, otherwise releases the capsule and detaches
the booking from the guest's list.  Capsules and guests are never removed
from the hotel's collections, so the fall-through branches that leave a
missing reference untouched are unreachable in program states. -/
def Hotel.cancel_booking (h : Hotel) (b : Booking) :
    Except HErr Unit × Hotel :=
  if b.is_paid then (.error .PaymentLocked, h)
  else
    let capsules2 :=
      match alookup b.capsule_id h.capsules with
      | some c => ainsert b.capsule_id c.release h.capsules
      | none => h.capsules
    let guests2 :=
      match alookup b.guest_id h.guests with
      | some g => ainsert b.guest_id (g.remove_booking b.booking_id) h.guests
      | none => h.guests
    (.ok (), { h with capsules := capsules2, guests := guests2 })

/-- Hotel.check_out: fails with BookingNotFound when the id is absent,
otherwise cancels (a PaymentLocked failure propagates before the ledger
is touched) and then deletes the booking from the active ledger. -/
def Hotel.check_out (h : Hotel) (booking_id : Nat) :
    Except HErr Unit × Hotel :=
  match alookup booking_id h.bookings with
  | none => (.error .BookingNotFound, h)
  | some b =>
    match h.cancel_booking b with
    | (.error e, h2) => (.error e, h2)
    | (.ok _, h2) => (.ok (), { h2 with bookings := aerase booking_id h2.bookings })

/-- Hotel.get_available_capsules: filter the inventory by the inlined
availability-on-a-date test, in insertion order. -/
def Hotel.get_available_capsules (h : Hotel) (date : Date) : List Capsule :=
  (h.capsules.map Prod.snd).filter (fun c => c.available_on date)

/-- The guest name a booking is attributed to, read through the
booking's guest reference (guests are never removed, names never change
after registration, so the fallback is unreachable in program states). -/
def Hotel.booking_guest_name (h : Hotel) (b : Booking) : String :=
  match alookup b.guest_id h.guests with
  | some g => g.name
  | none => ""

/-- Booking.calculate_total evaluated through the booking's capsule
reference (capsules are never removed, so the fallback is unreachable in
program states). -/
def Hotel.booking_total (h : Hotel) (b : Booking) : Rat :=
  match alookup b.capsule_id h.capsules with
  | some c => b.calculate_total c.price_per_night
  | none => 0

/-- One defaultdict(float) update: stats[k] += v with default 0. -/
def statsAdd (stats : List (String × Rat)) (k : String) (v : Rat) :
    List (String × Rat) :=
  match alookup k stats with
  | some old => ainsert k (old + v) stats
  | none => stats ++ [(k, v)]

/-- Hotel.get_guest_statistics: fold the active ledger into a
name-keyed defaultdict of summed booking totals. -/
def Hotel.get_guest_statistics (h : Hotel) : List (String × Rat) :=
  h.bookings.foldl
    (fun stats p => statsAdd stats (h.booking_guest_name p.2) (h.booking_total p.2))
    []

/-- Reading the statistics mapping: value of a name, 0 when absent. -/
def statValue (stats : List (String × Rat)) (name : String) : Rat :=
  (alookup name stats).getD 0

/-- The state effect of MainWindow.mark_as_paid in src/ui/main_window.py:
look the booking up in the ledger, return unchanged when absent or
already paid (the dialog guard), otherwise apply Booking.mark_as_paid to
the ledger entry. -/
def MainWindow.mark_as_paid (h : Hotel) (booking_id : Nat) : Hotel :=
  match alookup booking_id h.bookings with
  | none => h
  | some b =>
    match b.mark_as_paid with
    | .error _ => h
    | .ok b2 => { h with bookings := ainsert booking_id b2 h.bookings }

/-! ### Reachable states and their invariants -/

/-- The mutating operations of the call surface (the chat-bot and GUI
adapters invoke exactly these; the GUI cancel button performs the same
state change as Hotel.check_out). -/
inductive Op where
  | register (name passport phone : String)
  | addCapsule (ty : String) (u : Rat)
  | createBooking (today : Date) (guest_id capsule_id : Nat)
      (start_date end_date : Date)
  | markPaid (booking_id : Nat)
  | checkOut (booking_id : Nat)

/-- The state transition of one operation. -/
def applyOp (h : Hotel) : Op → Hotel
  | .register n p ph => (h.register_guest n p ph).2
  | .addCapsule ty u => (h.add_capsule ty u).2
  | .createBooking t g c s e => (h.create_booking t g c s e).2
  | .markPaid bid => MainWindow.mark_as_paid h bid
  | .checkOut bid => (h.check_out bid).2

/-- Run a sequence of operations from a state. -/
def runOps (h : Hotel) (ops : List Op) : Hotel := ops.foldl applyOp h

/-- States reachable from the fresh hotel through the operations. -/
def Reachable (h : Hotel) : Prop := ∃ ops, runOps Hotel.init ops = h

/-- The state invariants maintained by every operation. -/
structure HotelInv (h : Hotel) : Prop where
  capFlag : ∀ p ∈ h.capsules, p.2.is_available = true ↔ p.2.current_booking = none
  passUsed : ∀ s ∈ h.guests.map (fun p => p.2.passport), s ∈ h.used_passports
  passNodup : (h.guests.map (fun p => p.2.passport)).Nodup
  guestFresh : ∀ p ∈ h.guests, p.1 < h.next_guest_id
  histLen : h.history.length ≤ HISTORY_MAXLEN
  bookKeys : (h.bookings.map Prod.fst).Nodup

theorem alookup_none_of_lt {α : Type} {l : List (Nat × α)} {n : Nat}
    (hlt : ∀ p ∈ l, p.1 < n) : alookup n l = none := by
  rw [alookup_eq_none_iff]
  intro hmem
  obtain ⟨p, hp, hfst⟩ := List.mem_map.mp hmem
  exact absurd (hfst ▸ hlt p hp) (lt_irrefl n)

theorem historyAppend_length_le {hist : List Nat}
    (h : hist.length ≤ HISTORY_MAXLEN) (bid : Nat) :
    (historyAppend hist bid).length ≤ HISTORY_MAXLEN := by
  unfold historyAppend HISTORY_MAXLEN at *
  split
  next hlen =>
    simp only [List.length_append, List.length_drop, List.length_cons,
      List.length_nil]
    omega
  next hlen =>
    simp only [List.length_append, List.length_cons, List.length_nil]
    omega

theorem inv_init : HotelInv Hotel.init := by
  constructor <;> simp [Hotel.init, HISTORY_MAXLEN]

theorem inv_register (h : Hotel) (hv : HotelInv h) (n p ph : String) :
    HotelInv (h.register_guest n p ph).2 := by
  unfold Hotel.register_guest
  by_cases hp : p ∈ h.used_passports
  · simpa [hp] using hv
  · have hfresh := alookup_none_of_lt hv.guestFresh
    simp only [hp, if_neg, ite_false, if_false]
    refine ⟨?_, ?_, ?_, ?_, hv.histLen, hv.bookKeys⟩
    · exact hv.capFlag
    · intro s hs
      rw [ainsert_of_alookup_none hfresh] at hs
      simp only [List.map_append, List.mem_append, List.map_cons,
        List.map_nil, List.mem_singleton] at hs
      rcases hs with hs | hs
      · exact List.mem_append_left _ (hv.passUsed s hs)
      · subst hs
        exact List.mem_append_right _ (List.mem_singleton.mpr rfl)
    · rw [ainsert_of_alookup_none hfresh]
      simp only [List.map_append, List.map_cons, List.map_nil]
      rw [List.nodup_append]
      refine ⟨hv.passNodup, List.nodup_singleton _, ?_⟩
      intro a ha hb
      simp only [List.mem_singleton] at hb
      subst hb
      exact hp (hv.passUsed a ha)
    · intro q hq
      rw [ainsert_of_alookup_none hfresh] at hq
      rcases List.mem_append.mp hq with hq | hq
      · exact Nat.lt_succ_of_lt (hv.guestFresh q hq)
      · simp only [List.mem_singleton] at hq
        subst hq
        exact Nat.lt_succ_self _

theorem inv_addCapsule (h : Hotel) (hv : HotelInv h) (ty : String) (u : Rat) :
    HotelInv (h.add_capsule ty u).2 := by
  unfold Hotel.add_capsule
  refine ⟨?_, hv.passUsed, hv.passNodup, hv.guestFresh, hv.histLen, hv.bookKeys⟩
  intro q hq
  rcases mem_ainsert hq with hq | hq
  · subst hq
    simp
  · exact hv.capFlag q hq

theorem map_passport_ainsert (g2 : Guest) {gid : Nat} {g : Guest}
    {l : List (Nat × Guest)} (hg : alookup gid l = some g)
    (hp : g2.passport = g.passport) :
    (ainsert gid g2 l).map (fun p => p.2.passport) =
      l.map (fun p => p.2.passport) :=
  map_ainsert_of_eq (fun x => x.passport) hg hp

theorem inv_createBooking (h : Hotel) (hv : HotelInv h) (t : Date)
    (gid cid : Nat) (s e : Date) :
    HotelInv (h.create_booking t gid cid s e).2 := by
  unfold Hotel.create_booking
  cases hg : alookup gid h.guests with
  | none => simpa using hv
  | some guest =>
    cases hc : alookup cid h.capsules with
    | none => simpa using hv
    | some capsule =>
      by_cases h1 : e ≤ s
      · simpa [h1] using hv
      · by_cases h2 : s < t
        · simpa [h1, h2] using hv
        · by_cases h3 : 30 < e - s
          · simpa [h1, h2, h3] using hv
          · by_cases h4 : capsule.is_available = false
            · simpa [h1, h2, h3, h4, Capsule.book] using hv
            · simp only [h1, h2, h3, if_false, ite_false, Capsule.book, h4]
              simp only [Bool.true_eq_false, if_false, ite_false]
              refine ⟨?_, ?_, ?_, ?_, ?_, ?_⟩
              · intro q hq
                rcases mem_ainsert hq with hq | hq
                · subst hq
                  simp
                · exact hv.capFlag q hq
              · intro str hstr
                rw [map_passport_ainsert (guest.add_booking h.next_booking_id)
                  hg rfl] at hstr
                exact hv.passUsed str hstr
              · rw [map_passport_ainsert (guest.add_booking h.next_booking_id)
                  hg rfl]
                exact hv.passNodup
              · intro q hq
                rcases mem_ainsert hq with hq | hq
                · subst hq
                  exact hv.guestFresh (gid, guest) (alookup_mem hg)
                · exact hv.guestFresh q hq
              · exact historyAppend_length_le hv.histLen _
              · exact keys_nodup_ainsert hv.bookKeys

theorem inv_markPaid (h : Hotel) (hv : HotelInv h) (bid : Nat) :
    HotelInv (MainWindow.mark_as_paid h bid) := by
  unfold MainWindow.mark_as_paid
  cases hb : alookup bid h.bookings with
  | none => exact hv
  | some b =>
    unfold Booking.mark_as_paid
    by_cases hpaid : b.is_paid
    · simpa [hpaid] using hv
    · simp only [hpaid, ite_false, if_false, Bool.false_eq_true]
      exact ⟨hv.capFlag, hv.passUsed, hv.passNodup, hv.guestFresh,
        hv.histLen, keys_nodup_ainsert hv.bookKeys⟩

theorem inv_cancelBooking (h : Hotel) (hv : HotelInv h) (b : Booking) :
    HotelInv (h.cancel_booking b).2 := by
  unfold Hotel.cancel_booking
  by_cases hpaid : b.is_paid
  · simpa [hpaid] using hv
  · simp only [hpaid, ite_false, if_false, Bool.false_eq_true]
    refine ⟨?_, ?_, ?_, ?_, hv.histLen, hv.bookKeys⟩
    · cases hcap : alookup b.capsule_id h.capsules with
      | none => simpa [hcap] using hv.capFlag
      | some c =>
        simp only [hcap]
        intro q hq
        rcases mem_ainsert hq with hq | hq
        · subst hq
          simp [Capsule.release]
        · exact hv.capFlag q hq
    · cases hgu : alookup b.guest_id h.guests with
      | none => simpa [hgu] using hv.passUsed
      | some g =>
        simp only [hgu]
        intro str hstr
        rw [map_passport_ainsert (g.remove_booking b.booking_id) hgu rfl] at hstr
        exact hv.passUsed str hstr
    · cases hgu : alookup b.guest_id h.guests with
      | none => simpa [hgu] using hv.passNodup
      | some g =>
        simp only [hgu]
        rw [map_passport_ainsert (g.remove_booking b.booking_id) hgu rfl]
        exact hv.passNodup
    · cases hgu : alookup b.guest_id h.guests with
      | none => simpa [hgu] using hv.guestFresh
      | some g =>
        simp only [hgu]
        intro q hq
        rcases mem_ainsert hq with hq | hq
        · subst hq
          exact hv.guestFresh (b.guest_id, g) (alookup_mem hgu)
        · exact hv.guestFresh q hq

theorem cancel_booking_ok_of_unpaid (h : Hotel) (b : Booking)
    (hpaid : b.is_paid = false) :
    h.cancel_booking b = (.ok (), (h.cancel_booking b).2) := by
  unfold Hotel.cancel_booking
  simp [hpaid]

theorem cancel_booking_bookings (h : Hotel) (b : Booking) :
    (h.cancel_booking b).2.bookings = h.bookings := by
  unfold Hotel.cancel_booking
  by_cases hpaid : b.is_paid <;> simp [hpaid]

theorem check_out_not_found (h : Hotel) (bid : Nat)
    (hb : alookup bid h.bookings = none) :
    h.check_out bid = (.error .BookingNotFound, h) := by
  simp only [Hotel.check_out, hb]

theorem cancel_booking_paid (h : Hotel) (b : Booking)
    (hpaid : b.is_paid = true) :
    h.cancel_booking b = (.error .PaymentLocked, h) := by
  unfold Hotel.cancel_booking
  rw [hpaid]
  simp

theorem check_out_paid (h : Hotel) (bid : Nat) (b : Booking)
    (hb : alookup bid h.bookings = some b) (hpaid : b.is_paid = true) :
    h.check_out bid = (.error .PaymentLocked, h) := by
  simp only [Hotel.check_out, hb, cancel_booking_paid h b hpaid]

theorem check_out_unpaid (h : Hotel) (bid : Nat) (b : Booking) (h2 : Hotel)
    (hb : alookup bid h.bookings = some b)
    (hcb : h.cancel_booking b = (.ok (), h2)) :
    h.check_out bid =
      (.ok (), { h2 with bookings := aerase bid h2.bookings }) := by
  simp only [Hotel.check_out, hb, hcb]

theorem inv_checkOut (h : Hotel) (hv : HotelInv h) (bid : Nat) :
    HotelInv (h.check_out bid).2 := by
  cases hb : alookup bid h.bookings with
  | none => rw [check_out_not_found h bid hb]; exact hv
  | some b =>
    have hcv := inv_cancelBooking h hv b
    by_cases hpaid : b.is_paid
    · rw [check_out_paid h bid b hb hpaid]
      exact hv
    · have hcb := cancel_booking_ok_of_unpaid h b (by simpa using hpaid)
      rw [check_out_unpaid h bid b (h.cancel_booking b).2 hb hcb]
      exact ⟨hcv.capFlag, hcv.passUsed, hcv.passNodup, hcv.guestFresh,
        hcv.histLen, keys_nodup_aerase hcv.bookKeys⟩

theorem inv_applyOp (h : Hotel) (hv : HotelInv h) (op : Op) : HotelInv (applyOp h op) := by
  cases op with
  | register n p ph => exact inv_register h hv n p ph
  | addCapsule ty u => exact inv_addCapsule h hv ty u
  | createBooking t g c s e => exact inv_createBooking h hv t g c s e
  | markPaid bid => exact inv_markPaid h hv bid
  | checkOut bid => exact inv_checkOut h hv bid

theorem inv_runOps (ops : List Op) (h : Hotel) (hv : HotelInv h) :
    HotelInv (runOps h ops) := by
  induction ops generalizing h with
  | nil => exact hv
  | cons op rest ih => exact ih _ (inv_applyOp h hv op)

theorem inv_reachable (h : Hotel) (hr : Reachable h) : HotelInv h := by
  obtain ⟨ops, hops⟩ := hr
  exact hops ▸ inv_runOps ops Hotel.init inv_init

/-! ### Sample program run used to instantiate the theorems -/

/-- A short run: add one standard capsule (jitter 0), register one
guest, book the capsule for days 0..3 (created on day 0); the guest name
used for the registration. -/
def sampleName : String := "ivan ivanov"

/-- The sample guest's passport. -/
def samplePassport : String := "1234567890"

/-- The sample guest's phone. -/
def samplePhone : String := "+79123456789"

/-- A second name and phone, probing duplicate registration. -/
def sampleName2 : String := "petr petrov"

/-- The second phone. -/
def samplePhone2 : String := "+79098765432"

def sampleOps : List Op :=
  [Op.addCapsule TYPE_STANDARD 0,
   Op.register sampleName samplePassport samplePhone,
   Op.createBooking 0 1 1 0 3]

/-- The state after the sample run. -/
def sampleHotel : Hotel := runOps Hotel.init sampleOps

/-- The sample run continued by paying booking 1. -/
def samplePaidOps : List Op := sampleOps ++ [Op.markPaid 1]

/-- The state after the paid sample run. -/
def samplePaidHotel : Hotel := runOps Hotel.init samplePaidOps

/-- The booking created by the sample run. -/
def sampleBooking : Booking :=
  { booking_id := 1, guest_id := 1, capsule_id := 1,
    start_date := 0, end_date := 3, is_paid := false }

/-- The sample booking after payment. -/
def samplePaidBooking : Booking := { sampleBooking with is_paid := true }

/-- The sample guest as stored after the booking. -/
def sampleGuest : Guest :=
  { guest_id := 1, name := "Ivan Ivanov", passport := samplePassport,
    phone := samplePhone, bookings := [1] }

/-- The sample capsule as stored after the booking. -/
def sampleCapsuleBooked : Capsule :=
  { capsule_id := 1, ctype := TYPE_STANDARD,
    price_per_night := Capsule.calculate_price TYPE_STANDARD 0,
    is_available := false, current_booking := some sampleBooking }

/-- A second booking value, used to probe an occupied capsule. -/
def sampleBooking2 : Booking :=
  { booking_id := 2, guest_id := 1, capsule_id := 1,
    start_date := 4, end_date := 6, is_paid := false }

/-! ### Field-preservation equations for the operations -/

theorem cancel_booking_history (h : Hotel) (b : Booking) :
    (h.cancel_booking b).2.history = h.history := by
  unfold Hotel.cancel_booking
  by_cases hpaid : b.is_paid <;> simp [hpaid]

theorem cancel_booking_used (h : Hotel) (b : Booking) :
    (h.cancel_booking b).2.used_passports = h.used_passports := by
  unfold Hotel.cancel_booking
  by_cases hpaid : b.is_paid <;> simp [hpaid]

theorem create_booking_used (h : Hotel) (t : Date) (gid cid : Nat)
    (s e : Date) :
    (h.create_booking t gid cid s e).2.used_passports = h.used_passports := by
  unfold Hotel.create_booking
  cases alookup gid h.guests with
  | none => rfl
  | some guest =>
    cases alookup cid h.capsules with
    | none => rfl
    | some capsule =>
      by_cases h1 : e ≤ s
      · simp [h1]
      · by_cases h2 : s < t
        · simp [h1, h2]
        · by_cases h3 : 30 < e - s
          · simp [h1, h2, h3]
          · by_cases h4 : capsule.is_available = false <;>
              simp [h1, h2, h3, h4, Capsule.book]

theorem check_out_used (h : Hotel) (bid : Nat) :
    (h.check_out bid).2.used_passports = h.used_passports := by
  cases hb : alookup bid h.bookings with
  | none => rw [check_out_not_found h bid hb]
  | some b =>
    by_cases hpaid : b.is_paid
    · rw [check_out_paid h bid b hb hpaid]
    · rw [check_out_unpaid h bid b (h.cancel_booking b).2 hb
        (cancel_booking_ok_of_unpaid h b (by simpa using hpaid))]
      exact cancel_booking_used h b

theorem check_out_history (h : Hotel) (bid : Nat) :
    (h.check_out bid).2.history = h.history := by
  cases hb : alookup bid h.bookings with
  | none => rw [check_out_not_found h bid hb]
  | some b =>
    by_cases hpaid : b.is_paid
    · rw [check_out_paid h bid b hb hpaid]
    · rw [check_out_unpaid h bid b (h.cancel_booking b).2 hb
        (cancel_booking_ok_of_unpaid h b (by simpa using hpaid))]
      exact cancel_booking_history h b

theorem mark_as_paid_used (h : Hotel) (bid : Nat) :
    (MainWindow.mark_as_paid h bid).used_passports = h.used_passports := by
  unfold MainWindow.mark_as_paid Booking.mark_as_paid
  cases hb : alookup bid h.bookings with
  | none => rfl
  | some b => by_cases hpaid : b.is_paid <;> simp [hpaid]

/-! ### The claims -/

/-- Claim C1: every booking-creation attempt (with resolvable guest and
capsule references) enforces the three date validations in source order:
end before or equal to start fails with DateRangeInvalid, a start before
the creation day fails with DateInPast, a span of more than 30 days fails
with DurationTooLong; and any such failure returns the hotel state
entirely unchanged (no booking entity, no capsule mutation, no guest-list
change, no history append) because validation fully precedes mutation. -/
theorem claim1 (h : Hotel) (today start_date end_date : Date)
    (gid cid : Nat) (g : Guest) (c : Capsule)
    (hg : alookup gid h.guests = some g)
    (hc : alookup cid h.capsules = some c)
    (hbad : end_date ≤ start_date ∨ start_date < today ∨
      30 < end_date - start_date) :
    h.create_booking today gid cid start_date end_date =
      (.error (if end_date ≤ start_date then .DateRangeInvalid
               else if start_date < today then .DateInPast
               else .DurationTooLong), h) := by
  by_cases h1 : end_date ≤ start_date
  · simp [Hotel.create_booking, hg, hc, h1]
  · by_cases h2 : start_date < today
    · simp [Hotel.create_booking, hg, hc, h1, h2]
    · have h3 : 30 < end_date - start_date := by
        rcases hbad with hb | hb | hb
        · exact absurd hb h1
        · exact absurd hb h2
        · exact hb
      simp [Hotel.create_booking, hg, hc, h1, h2, h3]

/-- Witness for C1: in the sample state, booking with end day 3 before
start day 5 fails with DateRangeInvalid and leaves the state unchanged. -/
theorem claim1_witness :
    sampleHotel.create_booking 0 1 1 5 3 =
      (.error .DateRangeInvalid, sampleHotel) := by
  have h := claim1 sampleHotel 0 5 3 1 1 sampleGuest sampleCapsuleBooked
    rfl rfl (Or.inl (by decide))
  simpa using h

/-- Claim C2: in every reachable state each capsule holds at most one
occupying booking, made precise by the flag discipline (available iff no
current booking, so the single current-booking slot is the only occupant);
booking an occupied capsule always fails with CapsuleUnavailable; and a
creation attempt against an occupied capsule always fails and leaves the
hotel state (availability flag and current-booking reference included)
unchanged. -/
theorem claim2 (h : Hotel) (hr : Reachable h) :
    (∀ cid c, alookup cid h.capsules = some c →
        (c.is_available = true ↔ c.current_booking = none)) ∧
    (∀ (c : Capsule) (b : Booking), c.is_available = false →
        c.book b = .error .CapsuleUnavailable) ∧
    (∀ (today : Date) (gid cid : Nat) (s e : Date) (c : Capsule),
        alookup cid h.capsules = some c → c.is_available = false →
        ∃ err, h.create_booking today gid cid s e = (.error err, h)) := by
  have hv := inv_reachable h hr
  refine ⟨?_, ?_, ?_⟩
  · intro cid c hc
    exact hv.capFlag (cid, c) (alookup_mem hc)
  · intro c b hav
    simp [Capsule.book, hav]
  · intro t gid cid s e c hc hav
    cases hg : alookup gid h.guests with
    | none => exact ⟨.GuestNotFound, by simp [Hotel.create_booking, hg]⟩
    | some guest =>
      by_cases h1 : e ≤ s
      · exact ⟨.DateRangeInvalid, by simp [Hotel.create_booking, hg, hc, h1]⟩
      · by_cases h2 : s < t
        · exact ⟨.DateInPast, by simp [Hotel.create_booking, hg, hc, h1, h2]⟩
        · by_cases h3 : 30 < e - s
          · exact ⟨.DurationTooLong,
              by simp [Hotel.create_booking, hg, hc, h1, h2, h3]⟩
          · exact ⟨.CapsuleUnavailable,
              by simp [Hotel.create_booking, hg, hc, h1, h2, h3,
                Capsule.book, hav]⟩

/-- Witness for C2: the sample capsule is occupied after the sample
booking; its flag matches its reference, direct booking fails with
CapsuleUnavailable, and a creation attempt against it fails leaving the
state unchanged. -/
theorem claim2_witness :
    (sampleCapsuleBooked.is_available = true ↔
      sampleCapsuleBooked.current_booking = none) ∧
    Capsule.book sampleCapsuleBooked sampleBooking2 =
      .error .CapsuleUnavailable ∧
    ∃ err, sampleHotel.create_booking 0 1 1 4 6 = (.error err, sampleHotel) := by
  have h := claim2 sampleHotel ⟨sampleOps, rfl⟩
  exact ⟨h.1 1 sampleCapsuleBooked rfl,
    h.2.1 sampleCapsuleBooked sampleBooking2 rfl,
    h.2.2 0 1 1 4 6 sampleCapsuleBooked rfl rfl⟩

/-- Claim C3: in every reachable state the stored guests' passports are
pairwise distinct; registering a passport already in the process-wide
used-passport set always fails with DuplicatePassport and leaves the
whole state (registry and next-id counter included) unchanged; and no
operation ever removes a passport from the used set, so a passport
accepted once stays rejected for the lifetime of the process, even after
the guest's bookings are cancelled. -/
theorem claim3 (h : Hotel) (hr : Reachable h) :
    (h.guests.map (fun p => p.2.passport)).Nodup ∧
    (∀ name passport phone, passport ∈ h.used_passports →
        h.register_guest name passport phone =
          (.error .DuplicatePassport, h)) ∧
    (∀ (op : Op) (passport : String), passport ∈ h.used_passports →
        passport ∈ (applyOp h op).used_passports) := by
  have hv := inv_reachable h hr
  refine ⟨hv.passNodup, ?_, ?_⟩
  · intro n p ph hmem
    simp [Hotel.register_guest, hmem]
  · intro op p hmem
    cases op with
    | register n p2 ph =>
      show p ∈ (h.register_guest n p2 ph).2.used_passports
      by_cases hm : p2 ∈ h.used_passports
      · simpa [Hotel.register_guest, hm] using hmem
      · simp only [Hotel.register_guest, hm, if_false, ite_false]
        exact List.mem_append_left _ hmem
    | addCapsule ty u => simpa [applyOp, Hotel.add_capsule] using hmem
    | createBooking t g c s e =>
      simpa [applyOp, create_booking_used] using hmem
    | markPaid bid => simpa [applyOp, mark_as_paid_used] using hmem
    | checkOut bid => simpa [applyOp, check_out_used] using hmem

/-- Witness for C3: in the sample state passports are distinct,
re-registering the sample passport fails with DuplicatePassport leaving
the state unchanged, and the passport survives a checkout that cancels
the guest's only booking. -/
theorem claim3_witness :
    (sampleHotel.guests.map (fun p => p.2.passport)).Nodup ∧
    sampleHotel.register_guest sampleName2 samplePassport samplePhone2 =
      (.error .DuplicatePassport, sampleHotel) ∧
    samplePassport ∈ (applyOp sampleHotel (Op.checkOut 1)).used_passports := by
  have h := claim3 sampleHotel ⟨sampleOps, rfl⟩
  exact ⟨h.1, h.2.1 sampleName2 samplePassport samplePhone2 (by decide),
    h.2.2 (Op.checkOut 1) samplePassport (by decide)⟩

/-- Claim C4: cancelling a paid booking always fails with PaymentLocked
and leaves the whole state (booking, capsule availability and reference,
guest list) unchanged; cancelling an unpaid booking always succeeds,
sets the capsule's availability to true, clears its current-booking
reference, and removes the booking from the guest's booking list. -/
theorem claim4 (h : Hotel) (b : Booking) :
    (b.is_paid = true → h.cancel_booking b = (.error .PaymentLocked, h)) ∧
    (b.is_paid = false →
      (h.cancel_booking b).1 = .ok () ∧
      (∀ c, alookup b.capsule_id h.capsules = some c →
        alookup b.capsule_id (h.cancel_booking b).2.capsules =
          some { c with is_available := true, current_booking := none }) ∧
      (∀ g, alookup b.guest_id h.guests = some g →
        alookup b.guest_id (h.cancel_booking b).2.guests =
          some { g with bookings := g.bookings.erase b.booking_id })) := by
  constructor
  · exact cancel_booking_paid h b
  · intro hpaid
    refine ⟨?_, ?_, ?_⟩
    · rw [cancel_booking_ok_of_unpaid h b hpaid]
    · intro c hc
      unfold Hotel.cancel_booking
      rw [hpaid]
      simp only [Bool.false_eq_true, if_false, ite_false, hc]
      rw [alookup_ainsert_self]
      rfl
    · intro g hg
      unfold Hotel.cancel_booking
      rw [hpaid]
      simp only [Bool.false_eq_true, if_false, ite_false, hg]
      rw [alookup_ainsert_self]
      rfl

/-- Witness for C4: cancelling the paid sample booking fails with
PaymentLocked and changes nothing; cancelling the unpaid one frees the
capsule and empties the guest's booking list. -/
theorem claim4_witness :
    samplePaidHotel.cancel_booking samplePaidBooking =
      (.error .PaymentLocked, samplePaidHotel) ∧
    alookup 1 (sampleHotel.cancel_booking sampleBooking).2.capsules =
      some { sampleCapsuleBooked with
              is_available := true, current_booking := none } ∧
    alookup 1 (sampleHotel.cancel_booking sampleBooking).2.guests =
      some { sampleGuest with bookings := sampleGuest.bookings.erase 1 } := by
  refine ⟨(claim4 samplePaidHotel samplePaidBooking).1 rfl, ?_, ?_⟩
  · exact ((claim4 sampleHotel sampleBooking).2 rfl).2.1 sampleCapsuleBooked rfl
  · exact ((claim4 sampleHotel sampleBooking).2 rfl).2.2 sampleGuest rfl

/-- Claim C5: checkOut on an absent booking id fails with BookingNotFound;
on a paid booking the PaymentLocked failure from cancel propagates and
the state is unchanged, so the booking stays in the active ledger and the
capsule stays occupied; on an unpaid booking it succeeds, the booking id
is no longer retrievable from the active ledger, while the recent-history
buffer is untouched and may still hold the booking. -/
theorem claim5 (h : Hotel) (hr : Reachable h) (bid : Nat) :
    (alookup bid h.bookings = none →
      h.check_out bid = (.error .BookingNotFound, h)) ∧
    (∀ b, alookup bid h.bookings = some b → b.is_paid = true →
      h.check_out bid = (.error .PaymentLocked, h)) ∧
    (∀ b, alookup bid h.bookings = some b → b.is_paid = false →
      (h.check_out bid).1 = .ok () ∧
      alookup bid (h.check_out bid).2.bookings = none ∧
      (h.check_out bid).2.history = h.history) := by
  have hv := inv_reachable h hr
  refine ⟨check_out_not_found h bid,
    fun b hb hp => check_out_paid h bid b hb hp, ?_⟩
  intro b hb hp
  have hcb := cancel_booking_ok_of_unpaid h b hp
  rw [check_out_unpaid h bid b (h.cancel_booking b).2 hb hcb]
  refine ⟨rfl, ?_, ?_⟩
  · show alookup bid (aerase bid (h.cancel_booking b).2.bookings) = none
    rw [cancel_booking_bookings]
    exact alookup_aerase_self hv.bookKeys
  · exact cancel_booking_history h b

/-- Witness for C5: an unknown id fails with BookingNotFound; checking
out the paid sample booking fails with PaymentLocked leaving the state
unchanged; checking out the unpaid one removes it from the ledger while
the history still holds it. -/
theorem claim5_witness :
    sampleHotel.check_out 42 = (.error .BookingNotFound, sampleHotel) ∧
    samplePaidHotel.check_out 1 = (.error .PaymentLocked, samplePaidHotel) ∧
    ((sampleHotel.check_out 1).1 = .ok () ∧
      alookup 1 (sampleHotel.check_out 1).2.bookings = none ∧
      (sampleHotel.check_out 1).2.history = sampleHotel.history) :=
  ⟨(claim5 sampleHotel ⟨sampleOps, rfl⟩ 42).1 rfl,
   (claim5 samplePaidHotel ⟨samplePaidOps, rfl⟩ 1).2.1 samplePaidBooking rfl rfl,
   (claim5 sampleHotel ⟨sampleOps, rfl⟩ 1).2.2 sampleBooking rfl rfl⟩

/-- Claim C6: marking an unpaid booking paid sets the paid flag (and
changes nothing else); every subsequent markPaid on that booking fails
with AlreadyPaid, and through the admin-panel action the hotel state is
exactly unchanged by such a failing call. -/
theorem claim6 (b : Booking) :
    (b.is_paid = false →
      b.mark_as_paid = .ok { b with is_paid := true } ∧
      Booking.mark_as_paid { b with is_paid := true } = .error .AlreadyPaid) ∧
    (b.is_paid = true →
      b.mark_as_paid = .error .AlreadyPaid ∧
      ∀ (h : Hotel) (bid : Nat), alookup bid h.bookings = some b →
        MainWindow.mark_as_paid h bid = h) := by
  constructor
  · intro hp
    constructor
    · simp [Booking.mark_as_paid, hp]
    · simp [Booking.mark_as_paid]
  · intro hp
    constructor
    · simp [Booking.mark_as_paid, hp]
    · intro h bid hb
      simp [MainWindow.mark_as_paid, hb, Booking.mark_as_paid, hp]

/-- Witness for C6: paying the unpaid sample booking succeeds and flips
only the paid flag; paying it again fails with AlreadyPaid, and the
admin-panel action on the paid state is a no-op. -/
theorem claim6_witness :
    Booking.mark_as_paid sampleBooking = .ok samplePaidBooking ∧
    Booking.mark_as_paid samplePaidBooking = .error .AlreadyPaid ∧
    MainWindow.mark_as_paid samplePaidHotel 1 = samplePaidHotel :=
  ⟨((claim6 sampleBooking).1 rfl).1,
   ((claim6 sampleBooking).1 rfl).2,
   ((claim6 samplePaidBooking).2 rfl).2 samplePaidHotel 1 rfl⟩

/-- Claim C7: the recent-history buffer never exceeds 1000 entries in any
reachable state; below capacity a new booking is appended at the end
(creation order, most-recent-last), at capacity the oldest entry (the
head) is evicted FIFO; requesting the last 5 returns exactly the length-5
suffix of the buffer in buffer order; and a request at least as large as
the buffer returns the whole buffer. -/
theorem claim7 (h : Hotel) (hr : Reachable h) :
    h.history.length ≤ 1000 ∧
    (∀ bid, h.history.length < 1000 →
      historyAppend h.history bid = h.history ++ [bid]) ∧
    (∀ bid, h.history.length = 1000 →
      historyAppend h.history bid = h.history.drop 1 ++ [bid]) ∧
    (∀ l1 l2, h.history = l1 ++ l2 → l2.length = 5 →
      Booking.get_recent_bookings h.history 5 = l2) ∧
    (∀ count, 1 ≤ count → h.history.length ≤ count →
      Booking.get_recent_bookings h.history count = h.history) := by
  have hv := inv_reachable h hr
  have hlen : h.history.length ≤ 1000 := hv.histLen
  refine ⟨hlen, ?_, ?_, ?_, ?_⟩
  · intro bid hsmall
    unfold historyAppend HISTORY_MAXLEN
    rw [if_neg (by omega)]
  · intro bid hfull
    unfold historyAppend HISTORY_MAXLEN
    rw [if_pos (by omega)]
  · intro l1 l2 hsplit h5
    unfold Booking.get_recent_bookings
    rw [if_neg (by omega), hsplit, List.length_append, h5]
    have hdrop : l1.length + 5 - 5 = l1.length := by omega
    rw [hdrop, List.drop_left]
  · intro count h1 hcount
    unfold Booking.get_recent_bookings
    rw [if_neg (by omega)]
    have h0 : h.history.length - count = 0 := by omega
    rw [h0, List.drop_zero]

/-- Witness for C7: the sample history is below capacity, appends at the
end, and a request larger than the buffer returns the whole buffer. -/
theorem claim7_witness :
    sampleHotel.history.length ≤ 1000 ∧
    historyAppend sampleHotel.history 2 = sampleHotel.history ++ [2] ∧
    Booking.get_recent_bookings sampleHotel.history 5 = sampleHotel.history := by
  have h := claim7 sampleHotel ⟨sampleOps, rfl⟩
  exact ⟨h.1, h.2.1 2 (by decide), h.2.2.2.2 5 (by decide) (by decide)⟩

theorem available_on_none {c : Capsule} (h : c.current_booking = none)
    (d : Date) : c.available_on d = c.is_available := by
  unfold Capsule.available_on
  rw [h]
  simp

theorem available_on_some {c : Capsule} {b : Booking}
    (h : c.current_booking = some b) (d : Date) :
    c.available_on d =
      (c.is_available ||
        !(decide (b.start_date ≤ d) && decide (d ≤ b.end_date))) := by
  unfold Capsule.available_on
  rw [h]

/-- Claim C8: in every reachable state, availableCapsules(d) returns
exactly the capsules that either have no current booking or whose current
booking's inclusive range [start, end] does not contain d: a capsule is
excluded for every d with start less-or-equal d less-or-equal end, and
included for every d strictly outside. -/
theorem claim8 (h : Hotel) (hr : Reachable h) (d : Date) (c : Capsule)
    (hc : c ∈ h.capsules.map Prod.snd) :
    c ∈ h.get_available_capsules d ↔
      (c.current_booking = none ∨
        ∃ b, c.current_booking = some b ∧
          ¬(b.start_date ≤ d ∧ d ≤ b.end_date)) := by
  have hv := inv_reachable h hr
  obtain ⟨p, hp, hpc⟩ := List.mem_map.mp hc
  have hflag : c.is_available = true ↔ c.current_booking = none := by
    rw [← hpc]
    exact hv.capFlag p hp
  unfold Hotel.get_available_capsules
  simp only [List.mem_filter]
  constructor
  · rintro ⟨hmem, hav⟩
    cases hcb : c.current_booking with
    | none => exact Or.inl rfl
    | some b =>
      refine Or.inr ⟨b, rfl, ?_⟩
      have hfalse : c.is_available = false := by
        cases hb : c.is_available
        · rfl
        · exact absurd (hflag.mp hb) (by simp [hcb])
      rw [available_on_some hcb, hfalse] at hav
      intro hin
      rcases hin with ⟨ha, hb⟩
      simp at hav
      rcases hav with h1 | h1
      · exact absurd ha (not_le.mpr h1)
      · exact absurd hb (not_le.mpr h1)
  · intro hrhs
    refine ⟨hc, ?_⟩
    rcases hrhs with hnone | ⟨b, hsome, hout⟩
    · rw [available_on_none hnone]
      exact hflag.mpr hnone
    · rw [available_on_some hsome]
      have hfalse : (decide (b.start_date ≤ d) && decide (d ≤ b.end_date)) = false := by
        rcases not_and_or.mp hout with h1 | h1
        · simp [h1]
        · simp [h1]
      simp [hfalse]

/-- Witness for C8: on day 1, inside the sample booking's range 0..3, the
occupied sample capsule is characterized as unavailable. -/
theorem claim8_witness :
    sampleCapsuleBooked ∈ sampleHotel.get_available_capsules 1 ↔
      (sampleCapsuleBooked.current_booking = none ∨
        ∃ b, sampleCapsuleBooked.current_booking = some b ∧
          ¬(b.start_date ≤ 1 ∧ 1 ≤ b.end_date)) := by
  refine claim8 sampleHotel ⟨sampleOps, rfl⟩ 1 sampleCapsuleBooked ?_
  have hmap : sampleHotel.capsules.map Prod.snd = [sampleCapsuleBooked] := rfl
  rw [hmap]
  exact List.mem_singleton.mpr rfl

theorem alookup_append_right_self {κ α : Type} [DecidableEq κ] {k : κ}
    {l : List (κ × α)} (h : alookup k l = none) (v : α) :
    alookup k (l ++ [(k, v)]) = some v := by
  rw [← ainsert_of_alookup_none h v, alookup_ainsert_self]

theorem alookup_append_single_ne {κ α : Type} [DecidableEq κ] {k k2 : κ}
    (h : k2 ≠ k) (l : List (κ × α)) (v : α) :
    alookup k2 (l ++ [(k, v)]) = alookup k2 l := by
  have hne : ¬(k = k2) := fun hh => h hh.symm
  induction l with
  | nil => simp [alookup, hne]
  | cons p rest ih =>
    by_cases hp : p.1 = k2 <;> simp [alookup, hp, ih]

theorem statValue_statsAdd (stats : List (String × Rat)) (k name : String)
    (v : Rat) :
    statValue (statsAdd stats k v) name =
      statValue stats name + (if k = name then v else 0) := by
  unfold statsAdd statValue
  cases hk : alookup k stats with
  | none =>
    by_cases hkn : k = name
    · subst hkn
      rw [alookup_append_right_self hk]
      simp [hk]
    · rw [alookup_append_single_ne (fun hh => hkn hh.symm)]
      simp [hkn]
  | some old =>
    by_cases hkn : k = name
    · subst hkn
      rw [alookup_ainsert_self]
      simp [hk]
    · rw [alookup_ainsert_ne (fun hh => hkn hh.symm)]
      simp [hkn]

theorem statValue_foldl (h : Hotel) (l : List (Nat × Booking))
    (init : List (String × Rat)) (name : String) :
    statValue (l.foldl (fun stats p =>
        statsAdd stats (h.booking_guest_name p.2) (h.booking_total p.2))
      init) name =
      statValue init name +
        (((l.map Prod.snd).filter
            (fun b => h.booking_guest_name b = name)).map h.booking_total).sum := by
  induction l generalizing init with
  | nil => simp
  | cons p rest ih =>
    simp only [List.foldl_cons, List.map_cons]
    rw [ih, statValue_statsAdd]
    by_cases hn : h.booking_guest_name p.2 = name
    · rw [if_pos hn, List.filter_cons_of_pos (by simp [hn])]
      simp only [List.map_cons, List.sum_cons]
      ring
    · rw [if_neg hn, List.filter_cons_of_neg (by simp [hn])]
      ring

/-- Claim C9: guestStatistics maps each guest display name (so two guests
with the same name are merged into one entry) to the sum of
calculateTotal, nights times nightly price, over exactly the bookings
currently in the active ledger attributed to a guest of that name;
bookings no longer in the ledger (removed by cancel or checkout)
contribute nothing. -/
theorem claim9 (h : Hotel) (name : String) :
    statValue h.get_guest_statistics name =
      (((h.bookings.map Prod.snd).filter
          (fun b => h.booking_guest_name b = name)).map h.booking_total).sum := by
  unfold Hotel.get_guest_statistics
  rw [statValue_foldl]
  simp [statValue, alookup]

/-- Claim C10: recentBookings with count 0 returns every entry currently
in the buffer, not the empty sequence, because the slice hist[-0:] starts
at index 0; for every count at least 1 it returns at most count
entries. -/
theorem claim10 (hist : List Nat) (count : Nat) :
    Booking.get_recent_bookings hist 0 = hist ∧
    (1 ≤ count → (Booking.get_recent_bookings hist count).length ≤ count) := by
  constructor
  · simp [Booking.get_recent_bookings]
  · intro h1
    unfold Booking.get_recent_bookings
    rw [if_neg (by omega), List.length_drop]
    omega

/-- Witness for C10: on the sample history, count 0 returns the whole
buffer and count 3 returns at most 3 entries. -/
theorem claim10_witness :
    Booking.get_recent_bookings sampleHotel.history 0 = sampleHotel.history ∧
    (Booking.get_recent_bookings sampleHotel.history 3).length ≤ 3 := by
  have h := claim10 sampleHotel.history 3
  exact ⟨h.1, h.2 (by decide)⟩
